import Mathlib

/-!
Verification of the Evalya.ai interview-session core against its
natural-language specification.

The definitions below are a shallow embedding of the TypeScript source:

* `handleTermination`, `disconnect` bookkeeping — src/components/InterviewSession.tsx,
  lines 77-131 (the write-once termination latch; the scheduled teardown calls
  `disconnect()` once and `onComplete` once, which we count in the state).
* `triggerViolation` — InterviewSession.tsx lines 169-179 (proctoring strikes).
* `silenceTick`, `sendSystemMessage` — InterviewSession.tsx lines 594-648
  (the 1-second silence/timeout monitor).
* `processEvent` — InterviewSession.tsx lines 457-499 (transcript assembly for
  agent text fragments and user transcription fragments).
* `updateNoiseFloor`, `processVadFrame` — InterviewSession.tsx lines 355-377
  (adaptive noise-floor VAD; a frame is represented by its RMS value, modelled
  as a rational number standing for the IEEE double of the source).
* `enqueueAudio`, `flushSources`, `openReset` — InterviewSession.tsx lines
  344-348, 425-438 and 502-522 (playback scheduling over the audio clock,
  modelled as a rational number).
* `toggleMute` — InterviewSession.tsx lines 657-662.
* `handleInterviewComplete`, `scoredResult` — src/App.tsx lines 23-128.

JavaScript strings are modelled as Lean strings; the JS operations
`startsWith`, `includes` and `trim` are implemented structurally over the
character list so that they evaluate in the kernel.  ASCII quotation marks
that appear inside source string literals are rendered with the escape \x27.
JS truthiness of a string value is modelled as the string being nonempty.
-/

namespace Evalya

/-- JS `pre.isPrefixOf`-style check over character lists. -/
def charsIsPrefix : List Char → List Char → Bool
  | [], _ => true
  | _ :: _, [] => false
  | a :: as, b :: bs => a == b && charsIsPrefix as bs

/-- Substring occurrence over character lists (JS `String.prototype.includes`). -/
def charsContains (pat : List Char) : List Char → Bool
  | [] => pat.isEmpty
  | c :: cs => charsIsPrefix pat (c :: cs) || charsContains pat cs

/-- JS `s.startsWith(pre)`. -/
def jsStartsWith (s pre : String) : Bool := charsIsPrefix pre.data s.data

/-- JS `s.includes(pat)`. -/
def jsIncludes (s pat : String) : Bool := charsContains pat.data s.data

/-- JS `s.trim()`: strip leading and trailing whitespace. -/
def jsTrim (s : String) : String :=
  ⟨((s.data.dropWhile Char.isWhitespace).reverse.dropWhile Char.isWhitespace).reverse⟩

/-! ### Termination latch (InterviewSession.tsx lines 77-131) -/

/-- Observable state of the termination path: the `terminationTriggeredRef`
latch, the recorded reason, and counters for how many times the teardown
(`disconnect`) ran and how many times `onComplete` was invoked. -/
structure TermState where
  terminationTriggered : Bool
  recordedReason : Option String
  disconnectCount : Nat
  onCompleteCount : Nat
  onCompleteReason : Option String
deriving DecidableEq, Repr

def initialTermState : TermState :=
  { terminationTriggered := false
    recordedReason := none
    disconnectCount := 0
    onCompleteCount := 0
    onCompleteReason := none }

/-- InterviewSession.tsx lines 120-131: `handleTermination` returns early when
the latch is set; otherwise it sets the latch, records the reason, and
schedules the one teardown (`disconnect()` followed by `onComplete`). -/
def handleTermination (reason : String) (s : TermState) : TermState :=
  if s.terminationTriggered then s
  else
    { terminationTriggered := true
      recordedReason := some reason
      disconnectCount := s.disconnectCount + 1
      onCompleteCount := s.onCompleteCount + 1
      onCompleteReason := some reason }

/-- A whole sequence of termination triggers, applied in order. -/
def runTerminations (reasons : List String) (s : TermState) : TermState :=
  reasons.foldl (fun t r => handleTermination r t) s

/-! ### Proctoring monitor (InterviewSession.tsx lines 169-179) -/

structure ProctorState where
  warningCount : Nat
  violationMessage : Option String
  term : TermState
deriving DecidableEq, Repr

def initialProctorState : ProctorState :=
  { warningCount := 0, violationMessage := none, term := initialTermState }

def securityViolationReason : String := "Security Violation: Multiple breaches detected."

/-- InterviewSession.tsx lines 169-179: display the warning, increment the
strike counter, and invoke termination once the counter reaches 3. -/
def triggerViolation (msg : String) (s : ProctorState) : ProctorState :=
  let newCount := s.warningCount + 1
  { warningCount := newCount
    violationMessage := some msg
    term := if 3 ≤ newCount then handleTermination securityViolationReason s.term else s.term }

/-- The 3000 ms timeout scheduled by `triggerViolation` clearing the banner. -/
def violationMessageTimeout (s : ProctorState) : ProctorState :=
  { s with violationMessage := none }

def runViolations (msgs : List String) (s : ProctorState) : ProctorState :=
  msgs.foldl (fun t m => triggerViolation m t) s

/-- Expected termination sub-state after `k` violations. -/
def expectedProctorTerm (k : Nat) : TermState :=
  if 3 ≤ k then
    { terminationTriggered := true
      recordedReason := some securityViolationReason
      disconnectCount := 1
      onCompleteCount := 1
      onCompleteReason := some securityViolationReason }
  else initialTermState

/-! ### Transcript assembly (InterviewSession.tsx lines 457-499) -/

inductive Speaker
  | user
  | ai
deriving DecidableEq, Repr

structure TranscriptLine where
  speaker : Speaker
  text : String
deriving DecidableEq, Repr

/-- One inbound transcript-bearing event: an agent text fragment
(`serverContent.modelTurn.parts[0].text`) or a user transcription fragment
(`serverContent.inputTranscription.text`). -/
inductive TranscriptEvent
  | aiText (text : String)
  | userText (text : String)
deriving DecidableEq, Repr

/-- The two parallel transcript representations: the display list
`transcriptLines` and the flat history `fullTranscriptHistory`. -/
structure TranscriptState where
  lines : List TranscriptLine
  history : List String
deriving DecidableEq, Repr

def initialTranscriptState : TranscriptState := { lines := [], history := [] }

def renderLine (l : TranscriptLine) : String :=
  (match l.speaker with
   | Speaker.ai => "AI: "
   | Speaker.user => "User: ") ++ l.text

/-- The two representations carry the same text content: each history entry is
the speaker prefix plus the corresponding display line text. -/
def consistentTranscript (s : TranscriptState) : Prop :=
  s.history = s.lines.map renderLine

/-- InterviewSession.tsx lines 457-499: agent fragments are trimmed, skipped
when empty, space-joined onto a trailing agent line or appended as a new line;
user fragments are skipped when empty, directly concatenated onto a trailing
user line or appended as a new line.  The flat history applies the same rule
keyed on the `AI:` / `User:` prefix of its last entry. -/
def processEvent (s : TranscriptState) : TranscriptEvent → TranscriptState
  | TranscriptEvent.aiText t =>
    let displayText := jsTrim t
    if displayText = "" then s
    else
      let lines :=
        match s.lines.getLast? with
        | some last =>
          if last.speaker = Speaker.ai then
            s.lines.dropLast ++ [⟨Speaker.ai, last.text ++ " " ++ displayText⟩]
          else s.lines ++ [⟨Speaker.ai, displayText⟩]
        | none => s.lines ++ [⟨Speaker.ai, displayText⟩]
      let history :=
        match s.history.getLast? with
        | some h =>
          if jsStartsWith h "AI:" then s.history.dropLast ++ [h ++ " " ++ displayText]
          else s.history ++ ["AI: " ++ displayText]
        | none => s.history ++ ["AI: " ++ displayText]
      { lines := lines, history := history }
  | TranscriptEvent.userText t =>
    if t = "" then s
    else
      let lines :=
        match s.lines.getLast? with
        | some last =>
          if last.speaker = Speaker.user then
            s.lines.dropLast ++ [⟨Speaker.user, last.text ++ t⟩]
          else s.lines ++ [⟨Speaker.user, t⟩]
        | none => s.lines ++ [⟨Speaker.user, t⟩]
      let history :=
        match s.history.getLast? with
        | some h =>
          if jsStartsWith h "User:" then s.history.dropLast ++ [h ++ t]
          else s.history ++ ["User: " ++ t]
        | none => s.history ++ ["User: " ++ t]
      { lines := lines, history := history }

def processEvents (es : List TranscriptEvent) (s : TranscriptState) : TranscriptState :=
  es.foldl processEvent s

/-! ### Silence/timeout monitor (InterviewSession.tsx lines 594-648) -/

/-- The refs and state touched by the 1-second silence monitor.  Timestamps
are milliseconds (`Date.now()`), modelled as naturals.  `sessionOpen` models
`sessionRef.current` being non-null; `sentMessages` records every directive
passed to `session.sendRealtimeInput` in order. -/
structure SilenceState where
  isConnected : Bool
  isWaitingForResponse : Bool
  isAiSpeaking : Bool
  isProcessingTimeout : Bool
  lastAiTurnEndTime : Nat
  silenceWarningCount : Nat
  transcriptLines : List TranscriptLine
  fullTranscriptHistory : List String
  sessionOpen : Bool
  sentMessages : List String
  systemMessageStatus : Option String
  silenceTriggered : Bool
deriving DecidableEq, Repr

/-- The status line template of `sendSystemMessage` (line 601). -/
def promptStatus (text : String) : String :=
  "System: Prompting AI (" ++ (if jsIncludes text "still" then "Skip" else "Reminder") ++ ")..."

/-- InterviewSession.tsx lines 594-608: send the directive over the live
session (only when the handle exists) and display the status line. -/
def sendSystemMessage (text : String) (s : SilenceState) : SilenceState :=
  if s.sessionOpen then
    { s with
      sentMessages := s.sentMessages ++ [text]
      systemMessageStatus := some (promptStatus text)
      silenceTriggered := true }
  else s

def silentDirective : String :=
  "System Alert: Candidate is silent. Say exactly: \x27Please start answering when you’re ready.\x27"

def stillSilentDirective : String :=
  "System Alert: Candidate is still silent. Treat this as a failed answer. Say exactly: \x27I will continue to the next question.\x27 and ask the next question."

def noAnswerEntry : String := "[No Answer - Time Limit Exceeded]"

/-- InterviewSession.tsx lines 611-648: one tick of the silence interval. -/
def silenceTick (now : Nat) (s : SilenceState) : SilenceState :=
  if !s.isConnected then s
  else if s.isWaitingForResponse && !s.isAiSpeaking && !s.isProcessingTimeout then
    if 10000 < now - s.lastAiTurnEndTime then
      let s₁ :=
        { s with
          isProcessingTimeout := true
          silenceWarningCount := s.silenceWarningCount + 1 }
      if 2 < s₁.silenceWarningCount then
        let s₂ :=
          { s₁ with
            transcriptLines := s₁.transcriptLines ++ [⟨Speaker.user, noAnswerEntry⟩]
            fullTranscriptHistory := s₁.fullTranscriptHistory ++ ["User: " ++ noAnswerEntry]
            silenceWarningCount := 0 }
        sendSystemMessage stillSilentDirective s₂
      else sendSystemMessage silentDirective s₁
    else s
  else s

/-- A connected, armed, unlocked state used to instantiate the silence tick. -/
def silenceExampleState : SilenceState :=
  { isConnected := true
    isWaitingForResponse := true
    isAiSpeaking := false
    isProcessingTimeout := false
    lastAiTurnEndTime := 5000
    silenceWarningCount := 0
    transcriptLines := []
    fullTranscriptHistory := []
    sessionOpen := true
    sentMessages := []
    systemMessageStatus := none
    silenceTriggered := false }

/-! ### Voice activity detection (InterviewSession.tsx lines 355-377) -/

def vadAlpha : ℚ := 5 / 100

def minThreshold : ℚ := 3 / 100

def vadMultiplier : ℚ := 6

def noiseFloorInitial : ℚ := 2 / 1000

/-- InterviewSession.tsx lines 359-362: adapt the noise floor to the RMS of
the current frame. -/
def updateNoiseFloor (currentNoise rms : ℚ) : ℚ :=
  if rms < currentNoise then currentNoise * (90 / 100) + rms * (10 / 100)
  else if rms < currentNoise * 3 then currentNoise * (1 - vadAlpha) + rms * vadAlpha
  else currentNoise

/-- InterviewSession.tsx line 365: the detection threshold computed from the
(already updated) noise floor. -/
def detectionThreshold (noiseFloor : ℚ) : ℚ := max minThreshold (noiseFloor * vadMultiplier)

/-- One VAD step: the new floor and whether this frame counts as speaking
(line 367: `rms > detectionThreshold`). -/
def processVadFrame (currentNoise rms : ℚ) : ℚ × Bool :=
  let floor := updateNoiseFloor currentNoise rms
  (floor, decide (detectionThreshold floor < rms))

/-! ### Playback scheduler (InterviewSession.tsx lines 344-348, 425-438, 502-522) -/

structure AudioSource where
  startTime : ℚ
  duration : ℚ
deriving DecidableEq, Repr

/-- `nextAudioStartTimeRef` plus the `sourcesRef` set; `stoppedSources`
records every source on which `stop()` was called by a flush. -/
structure SchedulerState where
  nextAudioStartTime : ℚ
  activeSources : List AudioSource
  stoppedSources : List AudioSource
deriving DecidableEq, Repr

def initialSchedulerState : SchedulerState :=
  { nextAudioStartTime := 0, activeSources := [], stoppedSources := [] }

/-- InterviewSession.tsx lines 513-521: schedule a decoded buffer at
`max(ctx.currentTime, nextAudioStartTimeRef.current)`, advance the cursor by
the buffer duration, and register the source.  Returns the new state and the
computed start time. -/
def enqueueAudio (now duration : ℚ) (s : SchedulerState) : SchedulerState × ℚ :=
  let startTime := max now s.nextAudioStartTime
  ({ s with
     nextAudioStartTime := startTime + duration
     activeSources := s.activeSources ++ [⟨startTime, duration⟩] }, startTime)

/-- InterviewSession.tsx lines 425-431 (the `isInterrupted` branch): stop every
active source, clear the set, and set `nextAudioStartTimeRef.current = 0`. -/
def flushSources (s : SchedulerState) : SchedulerState :=
  { nextAudioStartTime := 0
    activeSources := []
    stoppedSources := s.stoppedSources ++ s.activeSources }

/-- InterviewSession.tsx line 347 (`onopen`): reset the cursor to 0. -/
def openReset (s : SchedulerState) : SchedulerState :=
  { s with nextAudioStartTime := 0 }

/-- `source.onended` removing a finished source from the active set. -/
def sourceEnded (src : AudioSource) (s : SchedulerState) : SchedulerState :=
  { s with activeSources := s.activeSources.filter (fun a => a ≠ src) }

/-- One operation of the scheduler together with the audio clock at which it
happens. -/
inductive SchedOp
  | enqueue (duration : ℚ)
  | flush
  | openSession
deriving DecidableEq, Repr

def schedStep (s : SchedulerState) (now : ℚ) : SchedOp → SchedulerState
  | SchedOp.enqueue d => (enqueueAudio now d s).1
  | SchedOp.flush => flushSources s
  | SchedOp.openSession => openReset s

/-- A scheduler state with one active source and a pending cursor of 7,
as reached after scheduling a 5-second buffer at clock 2. -/
def staleSchedulerState : SchedulerState :=
  { nextAudioStartTime := 7, activeSources := [⟨2, 5⟩], stoppedSources := [] }

/-! ### Mute toggle (InterviewSession.tsx lines 657-662) -/

/-- `isMuted` React state plus the `enabled` flag of every audio track of the
captured stream; `hasStream` models `streamRef.current` being non-null. -/
structure MuteState where
  isMuted : Bool
  audioTracksEnabled : List Bool
  hasStream : Bool
deriving DecidableEq, Repr

/-- The state right after capture starts: UI unmuted, one enabled track. -/
def initialMuteState : MuteState :=
  { isMuted := false, audioTracksEnabled := [true], hasStream := true }

/-- InterviewSession.tsx lines 657-662: set every audio track enabled flag to
`!isMuted`, then flip `isMuted`. -/
def toggleMute (s : MuteState) : MuteState :=
  if s.hasStream then
    { s with
      audioTracksEnabled := s.audioTracksEnabled.map (fun _ => !s.isMuted)
      isMuted := !s.isMuted }
  else s

/-! ### Completion handler and scoring fallback (App.tsx lines 23-128) -/

inductive AppStep
  | FORM
  | INSTRUCTIONS
  | INTERVIEW
  | EVALUATING
  | RESULT
deriving DecidableEq, Repr

structure QuestionReview where
  question : String
  candidateAnswerSummary : String
  rating : Int
  feedback : String
deriving DecidableEq, Repr

structure InterviewResult where
  rating : Int
  feedback : String
  passed : Bool
  questions : List QuestionReview
  terminationReason : Option String
deriving DecidableEq, Repr

/-- Fields of the JSON object produced by `JSON.parse` on the scoring
response; each field may be missing. -/
structure EvalData where
  rating : Option Int
  feedback : Option String
  questions : Option (List QuestionReview)
deriving DecidableEq, Repr

/-- Outcome of the scoring request as observed by the handler:
`requestError` when `generateContent` throws, `parseError` when `JSON.parse`
throws on the response text, and `parsed` when parsing succeeds.  An absent
response text is parsed as the empty object, i.e. `parsed ⟨none, none, none⟩`
(App.tsx line 103). -/
inductive ScoringOutcome
  | requestError
  | parseError
  | parsed (data : EvalData)
deriving DecidableEq, Repr

structure CompletionOutcome where
  scoringRequested : Bool
  result : InterviewResult
  step : AppStep
deriving DecidableEq, Repr

/-- App.tsx lines 29-39: the disqualification result. -/
def disqualificationResult (reason : String) : InterviewResult :=
  { rating := 0
    feedback := "Interview terminated early."
    passed := false
    questions := []
    terminationReason := some reason }

def evaluationErrorFeedback : String :=
  "An error occurred during evaluation. Please try again."

/-- App.tsx lines 103-127: the result produced by the scoring path, including
the catch-block fallback and the defaults applied to missing fields
(`data.rating || 0`, `data.feedback || ...`, `data.questions || []`,
`passed = rating > 6`). -/
def scoredResult : ScoringOutcome → InterviewResult
  | ScoringOutcome.requestError =>
    { rating := 0, feedback := evaluationErrorFeedback, passed := false,
      questions := [], terminationReason := none }
  | ScoringOutcome.parseError =>
    { rating := 0, feedback := evaluationErrorFeedback, passed := false,
      questions := [], terminationReason := none }
  | ScoringOutcome.parsed data =>
    let rating := data.rating.getD 0
    { rating := rating
      feedback := data.feedback.getD "No feedback provided."
      passed := decide (6 < rating)
      questions := data.questions.getD []
      terminationReason := none }

/-- App.tsx lines 23-128: `handleInterviewComplete`.  The guard is the JS
condition `terminationReason && terminationReason !== "Completed"`: a present,
nonempty reason different from `Completed` bypasses scoring; every other case
(absent reason, empty string, or `Completed`) issues the scoring request and
its outcome determines the result.  Both paths end on the result screen. -/
def handleInterviewComplete (terminationReason : Option String)
    (outcome : ScoringOutcome) : CompletionOutcome :=
  match terminationReason with
  | some r =>
    if r ≠ "" ∧ r ≠ "Completed" then
      { scoringRequested := false, result := disqualificationResult r, step := AppStep.RESULT }
    else
      { scoringRequested := true, result := scoredResult outcome, step := AppStep.RESULT }
  | none =>
    { scoringRequested := true, result := scoredResult outcome, step := AppStep.RESULT }

/-! ## Theorems -/

/-- Once the latch is set, `handleTermination` is the identity. -/
theorem handleTermination_latched (x : String) (t : TermState)
    (h : t.terminationTriggered = true) : handleTermination x t = t := by
  simp [handleTermination, h]

/-- Once the latch is set, any further sequence of triggers is a no-op. -/
theorem runTerminations_latched (l : List String) (t : TermState)
    (h : t.terminationTriggered = true) : runTerminations l t = t := by
  induction l with
  | nil => rfl
  | cons a l ih =>
    show runTerminations l (handleTermination a t) = t
    rw [handleTermination_latched a t h]
    exact ih

/-- C1: for every sequence of invocations of the termination entry point
`handleTermination`, in any order, exactly one invocation wins: the first one.
Exactly one termination reason is recorded, the teardown (`disconnect`) runs
exactly once, `onComplete` is called exactly once with that reason, and every
later invocation is a no-op that changes no state. -/
theorem termination_latch_spec (r : String) (rs : List String) :
    (runTerminations (r :: rs) initialTermState).recordedReason = some r ∧
    (runTerminations (r :: rs) initialTermState).disconnectCount = 1 ∧
    (runTerminations (r :: rs) initialTermState).onCompleteCount = 1 ∧
    (runTerminations (r :: rs) initialTermState).onCompleteReason = some r ∧
    ∀ x : String,
      handleTermination x (runTerminations (r :: rs) initialTermState) =
        runTerminations (r :: rs) initialTermState := by
  have hfirst : handleTermination r initialTermState =
      { terminationTriggered := true
        recordedReason := some r
        disconnectCount := 1
        onCompleteCount := 1
        onCompleteReason := some r } := by
    simp [handleTermination, initialTermState]
  have hrun : runTerminations (r :: rs) initialTermState =
      { terminationTriggered := true
        recordedReason := some r
        disconnectCount := 1
        onCompleteCount := 1
        onCompleteReason := some r } := by
    show runTerminations rs (handleTermination r initialTermState) = _
    rw [hfirst, runTerminations_latched rs _ rfl]
  refine ⟨?_, ?_, ?_, ?_, ?_⟩
  · rw [hrun]
  · rw [hrun]
  · rw [hrun]
  · rw [hrun]
  · intro x
    rw [hrun]
    exact handleTermination_latched x _ rfl

/-- One violation preserves the counting invariant of the proctoring state. -/
theorem triggerViolation_step (msg : String) (s : ProctorState)
    (h : s.term = expectedProctorTerm s.warningCount) :
    (triggerViolation msg s).warningCount = s.warningCount + 1 ∧
    (triggerViolation msg s).term = expectedProctorTerm (s.warningCount + 1) := by
  refine ⟨rfl, ?_⟩
  show (if 3 ≤ s.warningCount + 1 then
          handleTermination securityViolationReason s.term
        else s.term) = expectedProctorTerm (s.warningCount + 1)
  rw [h]
  by_cases h3 : 3 ≤ s.warningCount + 1
  · rw [if_pos h3]
    by_cases hw : 3 ≤ s.warningCount
    · rw [expectedProctorTerm, if_pos hw, expectedProctorTerm, if_pos h3]
      exact handleTermination_latched _ _ rfl
    · rw [expectedProctorTerm, if_neg hw, expectedProctorTerm, if_pos h3]
      simp [handleTermination, initialTermState]
  · rw [if_neg h3]
    have hw : ¬ 3 ≤ s.warningCount := by omega
    rw [expectedProctorTerm, if_neg hw, expectedProctorTerm, if_neg h3]

/-- The counting invariant holds along any run of violations. -/
theorem runViolations_invariant (msgs : List String) (s : ProctorState)
    (h : s.term = expectedProctorTerm s.warningCount) :
    (runViolations msgs s).warningCount = s.warningCount + msgs.length ∧
    (runViolations msgs s).term = expectedProctorTerm (s.warningCount + msgs.length) := by
  induction msgs generalizing s with
  | nil => simpa using ⟨rfl, h⟩
  | cons m msgs ih =>
    have hstep := triggerViolation_step m s h
    have hrest := ih (triggerViolation m s) hstep.2
    rw [hstep.1] at hrest
    show (runViolations msgs (triggerViolation m s)).warningCount = _ ∧
      (runViolations msgs (triggerViolation m s)).term = _
    constructor
    · rw [hrest.1, List.length_cons]; omega
    · rw [hrest.2, List.length_cons]; congr 1; omega

/-- C7: every detected proctoring violation displays a transient warning that
the scheduled timeout clears, and increments the strike counter by exactly
one; once the counter reaches 3, termination is invoked with the fixed
security-violation reason, and that termination fires exactly once (one
recorded reason, one teardown, one completion callback) no matter how many
further violations occur; below 3 strikes the termination state is
untouched. -/
theorem proctoring_spec :
    (∀ (msg : String) (s : ProctorState),
        (triggerViolation msg s).warningCount = s.warningCount + 1 ∧
        (triggerViolation msg s).violationMessage = some msg ∧
        (violationMessageTimeout (triggerViolation msg s)).violationMessage = none) ∧
    (∀ msgs : List String,
        (runViolations msgs initialProctorState).warningCount = msgs.length) ∧
    (∀ msgs : List String, 3 ≤ msgs.length →
        (runViolations msgs initialProctorState).term.terminationTriggered = true ∧
        (runViolations msgs initialProctorState).term.recordedReason =
          some securityViolationReason ∧
        (runViolations msgs initialProctorState).term.disconnectCount = 1 ∧
        (runViolations msgs initialProctorState).term.onCompleteCount = 1 ∧
        (runViolations msgs initialProctorState).term.onCompleteReason =
          some securityViolationReason) ∧
    (∀ msgs : List String, msgs.length < 3 →
        (runViolations msgs initialProctorState).term = initialTermState) := by
  have hinit : initialProctorState.term = expectedProctorTerm initialProctorState.warningCount := by
    simp [initialProctorState, expectedProctorTerm]
  refine ⟨?_, ?_, ?_, ?_⟩
  · intro msg s
    exact ⟨rfl, rfl, rfl⟩
  · intro msgs
    simpa [initialProctorState] using (runViolations_invariant msgs initialProctorState hinit).1
  · intro msgs h3
    have hterm := (runViolations_invariant msgs initialProctorState hinit).2
    rw [hterm, expectedProctorTerm,
      if_pos (show 3 ≤ initialProctorState.warningCount + msgs.length by
        simp only [initialProctorState]; omega)]
    exact ⟨rfl, rfl, rfl, rfl, rfl⟩
  · intro msgs h3
    have hterm := (runViolations_invariant msgs initialProctorState hinit).2
    rw [hterm, expectedProctorTerm,
      if_neg (show ¬ 3 ≤ initialProctorState.warningCount + msgs.length by
        simp only [initialProctorState]; omega)]

/-- Witness for C7: three tab switches yield three strikes and exactly one
termination with the security reason. -/
theorem proctoring_spec_witness :
    3 ≤ (["Tab switch detected.", "Tab switch detected.", "Tab switch detected."] :
        List String).length ∧
    (runViolations ["Tab switch detected.", "Tab switch detected.", "Tab switch detected."]
        initialProctorState).term.recordedReason = some securityViolationReason ∧
    (runViolations ["Tab switch detected.", "Tab switch detected.", "Tab switch detected."]
        initialProctorState).term.onCompleteCount = 1 := by
  have h := (proctoring_spec.2.2.1
    ["Tab switch detected.", "Tab switch detected.", "Tab switch detected."] (by decide))
  exact ⟨by decide, h.2.1, h.2.2.2.1⟩

/-- C4: the noise floor adapts fast-down when the frame RMS is below it (and
then strictly decreases), adapts slowly (coefficients 0.95 / 0.05) when the
RMS is between the floor and 3 times the floor, and is unchanged otherwise —
in particular a single frame at 10 times the floor does not move it.  A frame
is classified as speaking exactly when its RMS exceeds
max(minThreshold, floor times multiplier) with the fixed constants 0.03 and 6,
the floor being the one just updated by the same frame. -/
theorem vad_spec :
    (∀ floor rms : ℚ, rms < floor →
        updateNoiseFloor floor rms = floor * (90 / 100) + rms * (10 / 100) ∧
        updateNoiseFloor floor rms < floor) ∧
    (∀ floor rms : ℚ, ¬ rms < floor → rms < floor * 3 →
        updateNoiseFloor floor rms = floor * (95 / 100) + rms * (5 / 100)) ∧
    (∀ floor rms : ℚ, ¬ rms < floor → ¬ rms < floor * 3 →
        updateNoiseFloor floor rms = floor) ∧
    (∀ floor : ℚ, 0 < floor → updateNoiseFloor floor (10 * floor) = floor) ∧
    (∀ floor rms : ℚ,
        (processVadFrame floor rms).2 = true ↔
          max minThreshold (updateNoiseFloor floor rms * vadMultiplier) < rms) := by
  refine ⟨?_, ?_, ?_, ?_, ?_⟩
  · intro floor rms h
    rw [updateNoiseFloor, if_pos h]
    exact ⟨rfl, by linarith⟩
  · intro floor rms h1 h2
    rw [updateNoiseFloor, if_neg h1, if_pos h2, vadAlpha]
    ring
  · intro floor rms h1 h2
    rw [updateNoiseFloor, if_neg h1, if_neg h2]
  · intro floor hpos
    rw [updateNoiseFloor, if_neg (by linarith), if_neg (by linarith)]
  · intro floor rms
    simp [processVadFrame, detectionThreshold]

/-- Witness for C4: at floor 0.01, a frame with RMS 0.005 is below the floor,
so the floor strictly decreases; a frame at 10 times the floor leaves it
unchanged. -/
theorem vad_spec_witness :
    ((1 : ℚ) / 200 < 1 / 100 ∧ updateNoiseFloor (1 / 100) (1 / 200) < 1 / 100) ∧
    ((0 : ℚ) < 1 / 100 ∧ updateNoiseFloor (1 / 100) (10 * (1 / 100)) = 1 / 100) := by
  constructor
  · exact ⟨by norm_num, (vad_spec.1 (1 / 100) (1 / 200) (by norm_num)).2⟩
  · exact ⟨by norm_num, vad_spec.2.2.2.1 (1 / 100) (by norm_num)⟩

/-- Counterexample for C5: the interruption flush sets the next-start cursor
to 0, not to the current audio clock.  With the clock at 5 and a pending
cursor of 7, flushing yields cursor 0, which differs from the clock. -/
theorem flush_cursor_counterexample :
    (flushSources staleSchedulerState).nextAudioStartTime = 0 ∧
    ((0 : ℚ) ≠ 5) := by
  constructor
  · rfl
  · norm_num

/-- C5 (amended): on an interruption event the playback flush stops every
active source immediately, clears the active set, and resets the next-start
cursor to 0 — a value no larger than the (nonnegative) audio clock — so the
next enqueued buffer starts immediately: its computed start time equals the
clock at enqueue. -/
theorem flush_spec (s : SchedulerState) (now dur : ℚ) (hnow : 0 ≤ now) :
    (flushSources s).activeSources = [] ∧
    (flushSources s).stoppedSources = s.stoppedSources ++ s.activeSources ∧
    (flushSources s).nextAudioStartTime = 0 ∧
    (enqueueAudio now dur (flushSources s)).2 = now := by
  refine ⟨rfl, rfl, rfl, ?_⟩
  show max now (0 : ℚ) = now
  exact max_eq_left hnow

/-- Witness for C5: flushing a state with a stale cursor of 7 and then
enqueueing a buffer at clock 5 starts it at exactly 5. -/
theorem flush_spec_witness :
    (0 : ℚ) ≤ 5 ∧
    (enqueueAudio 5 2 (flushSources staleSchedulerState)).2 = 5 :=
  ⟨by norm_num, (flush_spec staleSchedulerState 5 2 (by norm_num)).2.2.2⟩

/-- Counterexample for C6: the next-start cursor is not monotonically
non-decreasing and not always at least the playback clock.  Enqueue a
1-second buffer at clock 0 (cursor becomes 1), then flush at clock 1/2: the
cursor drops to 0, strictly below both its previous value and the clock. -/
theorem sched_cursor_counterexample :
    (schedStep (schedStep initialSchedulerState 0 (SchedOp.enqueue 1)) (1 / 2)
        SchedOp.flush).nextAudioStartTime
      < (schedStep initialSchedulerState 0 (SchedOp.enqueue 1)).nextAudioStartTime ∧
    (schedStep (schedStep initialSchedulerState 0 (SchedOp.enqueue 1)) (1 / 2)
        SchedOp.flush).nextAudioStartTime < 1 / 2 := by
  constructor
  · show (0 : ℚ) < max 0 0 + 1
    simp
  · show (0 : ℚ) < 1 / 2
    norm_num

/-- C6 (amended): across enqueue operations the next-start cursor is
monotonically non-decreasing (for nonnegative buffer durations) and after
each enqueue it is at least the playback clock at that enqueue; consecutive
enqueues with no intervening flush never overlap (the second start time is at
least the first start time plus the first duration), and when the next buffer
is enqueued while the cursor is still ahead of the clock it plays
back-to-back (its start time equals the previous buffer's end).  The
interruption flush and the session-open reset set the cursor to 0, which can
drop it below the clock; the flush simultaneously empties the active set. -/
theorem sched_cursor_spec :
    (∀ (s : SchedulerState) (now d : ℚ), 0 ≤ d →
        s.nextAudioStartTime ≤ ((enqueueAudio now d s).1).nextAudioStartTime) ∧
    (∀ (s : SchedulerState) (now d : ℚ), 0 ≤ d →
        now ≤ ((enqueueAudio now d s).1).nextAudioStartTime) ∧
    (∀ (s : SchedulerState) (now d : ℚ),
        ((enqueueAudio now d s).1).nextAudioStartTime = (enqueueAudio now d s).2 + d) ∧
    (∀ (s : SchedulerState) (now₁ d₁ now₂ d₂ : ℚ), 0 ≤ d₁ →
        (enqueueAudio now₁ d₁ s).2 + d₁ ≤
          (enqueueAudio now₂ d₂ ((enqueueAudio now₁ d₁ s).1)).2) ∧
    (∀ (s : SchedulerState) (now₁ d₁ now₂ d₂ : ℚ),
        now₂ ≤ ((enqueueAudio now₁ d₁ s).1).nextAudioStartTime →
        (enqueueAudio now₂ d₂ ((enqueueAudio now₁ d₁ s).1)).2 =
          (enqueueAudio now₁ d₁ s).2 + d₁) ∧
    (∀ s : SchedulerState, (flushSources s).nextAudioStartTime = 0 ∧
        (flushSources s).activeSources = [] ∧
        (openReset s).nextAudioStartTime = 0) := by
  refine ⟨?_, ?_, ?_, ?_, ?_, ?_⟩
  · intro s now d hd
    show s.nextAudioStartTime ≤ max now s.nextAudioStartTime + d
    have := le_max_right now s.nextAudioStartTime
    linarith
  · intro s now d hd
    show now ≤ max now s.nextAudioStartTime + d
    have := le_max_left now s.nextAudioStartTime
    linarith
  · intro s now d
    rfl
  · intro s now₁ d₁ now₂ d₂ hd₁
    show max now₁ s.nextAudioStartTime + d₁ ≤
      max now₂ (max now₁ s.nextAudioStartTime + d₁)
    exact le_max_right _ _
  · intro s now₁ d₁ now₂ d₂ h
    show max now₂ (max now₁ s.nextAudioStartTime + d₁) =
      max now₁ s.nextAudioStartTime + d₁
    exact max_eq_right h
  · intro s
    exact ⟨rfl, rfl, rfl⟩

/-- Witness for C6 (amended): concrete instantiation of the enqueue
monotonicity and the back-to-back property. -/
theorem sched_cursor_spec_witness :
    ((0 : ℚ) ≤ 2 ∧
      initialSchedulerState.nextAudioStartTime ≤
        ((enqueueAudio 1 2 initialSchedulerState).1).nextAudioStartTime) ∧
    ((1 : ℚ) ≤ ((enqueueAudio 1 2 initialSchedulerState).1).nextAudioStartTime ∧
      (enqueueAudio 1 4 ((enqueueAudio 1 2 initialSchedulerState).1)).2 =
        (enqueueAudio 1 2 initialSchedulerState).2 + 2) := by
  constructor
  · exact ⟨by norm_num, sched_cursor_spec.1 initialSchedulerState 1 2 (by norm_num)⟩
  · constructor
    · show (1 : ℚ) ≤ max 1 0 + 2
      norm_num
    · exact sched_cursor_spec.2.2.2.2.1 initialSchedulerState 1 2 1 4
        (by show (1 : ℚ) ≤ max 1 0 + 2; norm_num)

/-- The skip directive contains the word still, so the status line reads
Skip. -/
theorem promptStatus_stillSilentDirective :
    promptStatus stillSilentDirective = "System: Prompting AI (Skip)..." := by decide

/-- The first-reminder directive does not contain the word still, so the
status line reads Reminder. -/
theorem promptStatus_silentDirective :
    promptStatus silentDirective = "System: Prompting AI (Reminder)..." := by decide

/-- C2: on a 1-second silence-monitor tick with the session connected,
awaiting-response set, the agent not speaking, the escalation lock free, and
more than 10 seconds elapsed since the agent's last turn-end, the lock is
acquired and the strike counter incremented; a resulting strike count of 1 or
2 sends the candidate-is-silent directive and displays the reminder status
while leaving the transcript untouched; a resulting count above 2 appends the
synthetic no-answer line for the user to both the display list and the flat
history, resets the strike counter to 0, sends the still-silent directive and
displays the skip status. -/
theorem silence_tick_spec (now : Nat) (s : SilenceState)
    (hconn : s.isConnected = true) (hwait : s.isWaitingForResponse = true)
    (hai : s.isAiSpeaking = false) (hlock : s.isProcessingTimeout = false)
    (hsess : s.sessionOpen = true) (helapsed : s.lastAiTurnEndTime + 10000 < now) :
    (silenceTick now s).isProcessingTimeout = true ∧
    (s.silenceWarningCount + 1 ≤ 2 →
        (silenceTick now s).silenceWarningCount = s.silenceWarningCount + 1 ∧
        (silenceTick now s).sentMessages = s.sentMessages ++ [silentDirective] ∧
        (silenceTick now s).systemMessageStatus =
          some "System: Prompting AI (Reminder)..." ∧
        (silenceTick now s).transcriptLines = s.transcriptLines ∧
        (silenceTick now s).fullTranscriptHistory = s.fullTranscriptHistory) ∧
    (2 < s.silenceWarningCount + 1 →
        (silenceTick now s).transcriptLines =
          s.transcriptLines ++ [⟨Speaker.user, noAnswerEntry⟩] ∧
        (silenceTick now s).fullTranscriptHistory =
          s.fullTranscriptHistory ++ ["User: " ++ noAnswerEntry] ∧
        (silenceTick now s).silenceWarningCount = 0 ∧
        (silenceTick now s).sentMessages = s.sentMessages ++ [stillSilentDirective] ∧
        (silenceTick now s).systemMessageStatus =
          some "System: Prompting AI (Skip)...") := by
  have hguard : 10000 < now - s.lastAiTurnEndTime := by omega
  by_cases hc : 2 < s.silenceWarningCount + 1
  · have hred : silenceTick now s =
        sendSystemMessage stillSilentDirective
          { s with
            isProcessingTimeout := true
            transcriptLines := s.transcriptLines ++ [⟨Speaker.user, noAnswerEntry⟩]
            fullTranscriptHistory :=
              s.fullTranscriptHistory ++ ["User: " ++ noAnswerEntry]
            silenceWarningCount := 0 } := by
      simp [silenceTick, hconn, hwait, hai, hlock, hguard, hc]
    rw [hred]
    refine ⟨?_, fun hle => absurd hc (by omega), fun _ => ⟨?_, ?_, ?_, ?_, ?_⟩⟩ <;>
      simp [sendSystemMessage, hsess, promptStatus_stillSilentDirective]
  · have hred : silenceTick now s =
        sendSystemMessage silentDirective
          { s with
            isProcessingTimeout := true
            silenceWarningCount := s.silenceWarningCount + 1 } := by
      simp [silenceTick, hconn, hwait, hai, hlock, hguard, hc]
    rw [hred]
    refine ⟨?_, fun _ => ⟨?_, ?_, ?_, ?_, ?_⟩, fun hgt => absurd hgt hc⟩ <;>
      simp [sendSystemMessage, hsess, promptStatus_silentDirective]

/-- Witness for C2: from a connected, armed state with strike count 0 and the
agent's turn ended at 5000 ms, a tick at 16000 ms acquires the lock and sends
the first reminder. -/
theorem silence_tick_spec_witness :
    (silenceTick 16000 silenceExampleState).isProcessingTimeout = true ∧
    (silenceTick 16000 silenceExampleState).sentMessages = [silentDirective] ∧
    (silenceTick 16000 silenceExampleState).systemMessageStatus =
      some "System: Prompting AI (Reminder)..." := by
  have h := silence_tick_spec 16000 silenceExampleState rfl rfl rfl rfl rfl (by decide)
  have h2 := h.2.1 (by decide)
  exact ⟨h.1, h2.2.1, h2.2.2.1⟩

/-- A history entry written with the agent prefix starts with AI:. -/
theorem jsStartsWith_ai_of_ai (x : String) : jsStartsWith ("AI: " ++ x) "AI:" = true := by
  rw [jsStartsWith, String.data_append,
    show "AI:".data = ['A', 'I', ':'] from rfl,
    show "AI: ".data = ['A', 'I', ':', ' '] from rfl]
  simp [charsIsPrefix]

/-- A history entry written with the user prefix does not start with AI:. -/
theorem jsStartsWith_user_not_ai (x : String) :
    jsStartsWith ("User: " ++ x) "AI:" = false := by
  rw [jsStartsWith, String.data_append,
    show "AI:".data = ['A', 'I', ':'] from rfl,
    show "User: ".data = ['U', 's', 'e', 'r', ':', ' '] from rfl]
  simp [charsIsPrefix]

/-- A history entry written with the user prefix starts with User:. -/
theorem jsStartsWith_user_of_user (x : String) :
    jsStartsWith ("User: " ++ x) "User:" = true := by
  rw [jsStartsWith, String.data_append,
    show "User:".data = ['U', 's', 'e', 'r', ':'] from rfl,
    show "User: ".data = ['U', 's', 'e', 'r', ':', ' '] from rfl]
  simp [charsIsPrefix]

/-- A history entry written with the agent prefix does not start with
User:. -/
theorem jsStartsWith_ai_not_user (x : String) :
    jsStartsWith ("AI: " ++ x) "User:" = false := by
  rw [jsStartsWith, String.data_append,
    show "User:".data = ['U', 's', 'e', 'r', ':'] from rfl,
    show "AI: ".data = ['A', 'I', ':', ' '] from rfl]
  simp [charsIsPrefix]

/-- Each transcript event preserves the consistency of the two
representations. -/
theorem processEvent_preserves (s : TranscriptState) (e : TranscriptEvent)
    (h : consistentTranscript s) : consistentTranscript (processEvent s e) := by
  unfold consistentTranscript at h
  cases e with
  | aiText t =>
    by_cases hd : jsTrim t = ""
    · simpa [consistentTranscript, processEvent, hd] using h
    · rcases hlast : s.lines.getLast? with _ | l
      · have hlines : s.lines = [] := List.getLast?_eq_none_iff.mp hlast
        have hhist : s.history = [] := by rw [h, hlines]; rfl
        unfold consistentTranscript processEvent
        simp [hd, hlines, hhist, renderLine]
      · have hhlast : s.history.getLast? = some (renderLine l) := by
          rw [h, List.getLast?_map, hlast]; rfl
        have hdrop : s.history.dropLast = s.lines.dropLast.map renderLine := by
          rw [h]
          exact (List.map_dropLast _ _).symm
        cases hsp : l.speaker with
        | ai =>
          have hrl : renderLine l = "AI: " ++ l.text := by
            unfold renderLine
            rw [hsp]
          unfold consistentTranscript processEvent
          simp only [hd, if_neg hd, hlast, hhlast, hsp, hrl, jsStartsWith_ai_of_ai,
            if_true, if_pos]
          simp [hdrop, renderLine, String.append_assoc]
        | user =>
          have hrl : renderLine l = "User: " ++ l.text := by
            unfold renderLine
            rw [hsp]
          unfold consistentTranscript processEvent
          simp only [hd, if_neg hd, hlast, hhlast, hsp, hrl, jsStartsWith_user_not_ai]
          simp [h, renderLine]
  | userText t =>
    by_cases hd : t = ""
    · simpa [consistentTranscript, processEvent, hd] using h
    · rcases hlast : s.lines.getLast? with _ | l
      · have hlines : s.lines = [] := List.getLast?_eq_none_iff.mp hlast
        have hhist : s.history = [] := by rw [h, hlines]; rfl
        unfold consistentTranscript processEvent
        simp [hd, hlines, hhist, renderLine]
      · have hhlast : s.history.getLast? = some (renderLine l) := by
          rw [h, List.getLast?_map, hlast]; rfl
        have hdrop : s.history.dropLast = s.lines.dropLast.map renderLine := by
          rw [h]
          exact (List.map_dropLast _ _).symm
        cases hsp : l.speaker with
        | user =>
          have hrl : renderLine l = "User: " ++ l.text := by
            unfold renderLine
            rw [hsp]
          unfold consistentTranscript processEvent
          simp only [hd, if_neg hd, hlast, hhlast, hsp, hrl, jsStartsWith_user_of_user,
            if_true, if_pos]
          simp [hdrop, renderLine, String.append_assoc]
        | ai =>
          have hrl : renderLine l = "AI: " ++ l.text := by
            unfold renderLine
            rw [hsp]
          unfold consistentTranscript processEvent
          simp only [hd, if_neg hd, hlast, hhlast, hsp, hrl, jsStartsWith_ai_not_user]
          simp [h, renderLine]

/-- Consistency holds along any event sequence. -/
theorem processEvents_preserves (es : List TranscriptEvent) (s : TranscriptState)
    (h : consistentTranscript s) : consistentTranscript (processEvents es s) := by
  induction es generalizing s with
  | nil => exact h
  | cons e es ih => exact ih (processEvent s e) (processEvent_preserves s e h)

/-- C3: for every sequence of agent text fragments and user transcription
fragments, a fragment from the same speaker as the last transcript line
extends that line (space-joined for trimmed agent fragments, directly
concatenated for user fragments — so the user fragments Hel, lo wor, ld merge
into the single line Hello world), a fragment from the other speaker appends
a new line, and after every event the flat history and the display list
carry the same text content: each history entry equals the speaker prefix
plus the corresponding display line's text. -/
theorem transcript_merge_spec :
    (∀ es : List TranscriptEvent,
        consistentTranscript (processEvents es initialTranscriptState)) ∧
    ((processEvents [TranscriptEvent.userText "Hel", TranscriptEvent.userText "lo wor",
        TranscriptEvent.userText "ld"] initialTranscriptState).lines =
      [⟨Speaker.user, "Hello world"⟩]) ∧
    ((processEvents [TranscriptEvent.userText "Hel", TranscriptEvent.userText "lo wor",
        TranscriptEvent.userText "ld"] initialTranscriptState).history =
      ["User: Hello world"]) ∧
    (∀ (s : TranscriptState) (t : String) (l : TranscriptLine),
        s.lines.getLast? = some l → l.speaker = Speaker.ai → jsTrim t ≠ "" →
        (processEvent s (TranscriptEvent.aiText t)).lines =
          s.lines.dropLast ++ [⟨Speaker.ai, l.text ++ " " ++ jsTrim t⟩]) ∧
    (∀ (s : TranscriptState) (t : String) (l : TranscriptLine),
        s.lines.getLast? = some l → l.speaker = Speaker.user → t ≠ "" →
        (processEvent s (TranscriptEvent.userText t)).lines =
          s.lines.dropLast ++ [⟨Speaker.user, l.text ++ t⟩]) ∧
    (∀ (s : TranscriptState) (t : String) (l : TranscriptLine),
        s.lines.getLast? = some l → l.speaker = Speaker.user → jsTrim t ≠ "" →
        (processEvent s (TranscriptEvent.aiText t)).lines =
          s.lines ++ [⟨Speaker.ai, jsTrim t⟩]) ∧
    (∀ (s : TranscriptState) (t : String) (l : TranscriptLine),
        s.lines.getLast? = some l → l.speaker = Speaker.ai → t ≠ "" →
        (processEvent s (TranscriptEvent.userText t)).lines =
          s.lines ++ [⟨Speaker.user, t⟩]) := by
  refine ⟨?_, by decide, by decide, ?_, ?_, ?_, ?_⟩
  · intro es
    exact processEvents_preserves es initialTranscriptState rfl
  · intro s t l hlast hsp hd
    unfold processEvent
    simp [hd, hlast, hsp]
  · intro s t l hlast hsp hd
    unfold processEvent
    simp [hd, hlast, hsp]
  · intro s t l hlast hsp hd
    unfold processEvent
    simp [hd, hlast, hsp]
  · intro s t l hlast hsp hd
    unfold processEvent
    simp [hd, hlast, hsp]

/-- Witness for C3: extending a trailing agent line Hi with the fragment
there yields the single line Hi there. -/
theorem transcript_merge_spec_witness :
    (processEvent ⟨[⟨Speaker.ai, "Hi"⟩], ["AI: Hi"]⟩
        (TranscriptEvent.aiText "there")).lines = [⟨Speaker.ai, "Hi there"⟩] := by
  have h := transcript_merge_spec.2.2.2.1 ⟨[⟨Speaker.ai, "Hi"⟩], ["AI: Hi"]⟩ "there"
    ⟨Speaker.ai, "Hi"⟩ rfl rfl (by decide)
  rw [h]
  decide

/-- Counterexample for C8: the guard of `handleInterviewComplete` is the JS
truthiness test `terminationReason && terminationReason !== "Completed"`, so
the empty string — a value that is neither absent nor equal to Completed —
falls through to the scoring path instead of being reported as a
disqualification. -/
theorem completion_empty_reason_counterexample :
    ("" : String) ≠ "Completed" ∧
    (handleInterviewComplete (some "") ScoringOutcome.requestError).scoringRequested = true ∧
    (handleInterviewComplete (some "") ScoringOutcome.requestError).result ≠
      disqualificationResult "" := by
  refine ⟨by decide, rfl, by decide⟩

/-- C8 (amended): when the termination reason is a present, nonempty string
different from Completed, no scoring request is attempted and a
disqualification result is reported carrying that reason verbatim, with
rating 0 and passed false; when the reason is absent, empty, or equal to
Completed, a scoring request is issued and its outcome determines the
result. -/
theorem completion_dispatch_spec (reason : Option String) (outcome : ScoringOutcome) :
    (∀ r : String, reason = some r → r ≠ "" → r ≠ "Completed" →
        (handleInterviewComplete reason outcome).scoringRequested = false ∧
        (handleInterviewComplete reason outcome).result = disqualificationResult r ∧
        (handleInterviewComplete reason outcome).result.terminationReason = some r ∧
        (handleInterviewComplete reason outcome).result.rating = 0 ∧
        (handleInterviewComplete reason outcome).result.passed = false) ∧
    (reason = none ∨ reason = some "" ∨ reason = some "Completed" →
        (handleInterviewComplete reason outcome).scoringRequested = true ∧
        (handleInterviewComplete reason outcome).result = scoredResult outcome) := by
  constructor
  · intro r hr hne hnc
    subst hr
    rw [handleInterviewComplete]
    rw [if_pos ⟨hne, hnc⟩]
    exact ⟨rfl, rfl, rfl, rfl, rfl⟩
  · rintro (hr | hr | hr) <;> subst hr
    · exact ⟨rfl, rfl⟩
    · rw [handleInterviewComplete, if_neg (by simp)]
      exact ⟨rfl, rfl⟩
    · rw [handleInterviewComplete, if_neg (by simp)]
      exact ⟨rfl, rfl⟩

/-- Witness for C8 (amended): a security-violation reason bypasses scoring
and is reported verbatim. -/
theorem completion_dispatch_spec_witness :
    (handleInterviewComplete (some securityViolationReason)
        ScoringOutcome.requestError).scoringRequested = false ∧
    (handleInterviewComplete (some securityViolationReason)
        ScoringOutcome.requestError).result.terminationReason =
      some securityViolationReason := by
  have h := (completion_dispatch_spec (some securityViolationReason)
    ScoringOutcome.requestError).1 securityViolationReason rfl (by decide) (by decide)
  exact ⟨h.1, h.2.2.1⟩

/-- C10: for a session that completes with reason Completed (or no reason)
the evaluation step always produces a result and lands on the result screen;
a thrown scoring request or unparsable response JSON yields the fallback
result with rating 0, passed false and the error feedback string; a parsed
response missing the rating field (in particular the empty object obtained
from an empty response text) likewise yields rating 0 and passed false,
since passed is rating greater than 6. -/
theorem evaluation_fallback_spec (reason : Option String) (outcome : ScoringOutcome)
    (h : reason = none ∨ reason = some "Completed") :
    (handleInterviewComplete reason outcome).step = AppStep.RESULT ∧
    (handleInterviewComplete reason outcome).result = scoredResult outcome ∧
    (outcome = ScoringOutcome.requestError ∨ outcome = ScoringOutcome.parseError →
        (handleInterviewComplete reason outcome).result.rating = 0 ∧
        (handleInterviewComplete reason outcome).result.passed = false ∧
        (handleInterviewComplete reason outcome).result.feedback = evaluationErrorFeedback) ∧
    (∀ (f : Option String) (q : Option (List QuestionReview)),
        outcome = ScoringOutcome.parsed ⟨none, f, q⟩ →
        (handleInterviewComplete reason outcome).result.rating = 0 ∧
        (handleInterviewComplete reason outcome).result.passed = false) ∧
    (outcome = ScoringOutcome.parsed ⟨none, none, none⟩ →
        (handleInterviewComplete reason outcome).result.feedback = "No feedback provided.") := by
  have hscored : handleInterviewComplete reason outcome =
      { scoringRequested := true, result := scoredResult outcome, step := AppStep.RESULT } := by
    rcases h with hr | hr <;> subst hr
    · rfl
    · rw [handleInterviewComplete, if_neg (by simp)]
  rw [hscored]
  refine ⟨rfl, rfl, ?_, ?_, ?_⟩
  · rintro (ho | ho) <;> subst ho <;> exact ⟨rfl, rfl, rfl⟩
  · intro f q ho
    subst ho
    exact ⟨rfl, rfl⟩
  · intro ho
    subst ho
    rfl

/-- Witness for C10: with no termination reason and a scoring request that
throws, the app still reaches the result screen with the fallback result. -/
theorem evaluation_fallback_spec_witness :
    (handleInterviewComplete none ScoringOutcome.requestError).step = AppStep.RESULT ∧
    (handleInterviewComplete none ScoringOutcome.requestError).result.rating = 0 ∧
    (handleInterviewComplete none ScoringOutcome.requestError).result.feedback =
      evaluationErrorFeedback := by
  have h := evaluation_fallback_spec none ScoringOutcome.requestError (Or.inl rfl)
  have h3 := h.2.2.1 (Or.inl rfl)
  exact ⟨h.1, h3.1, h3.2.2⟩

/-- C9: after every call to `toggleMute` on a live stream, each microphone
track's enabled flag equals the new value of the muted state: when the UI
reports muted the tracks are left enabled (audio still flows) and when the UI
reports unmuted the tracks are disabled. -/
theorem toggleMute_spec (s : MuteState) (h : s.hasStream = true) :
    (toggleMute s).isMuted = !s.isMuted ∧
    (∀ t ∈ (toggleMute s).audioTracksEnabled, t = (toggleMute s).isMuted) ∧
    ((toggleMute s).isMuted = true →
        ∀ t ∈ (toggleMute s).audioTracksEnabled, t = true) ∧
    ((toggleMute s).isMuted = false →
        ∀ t ∈ (toggleMute s).audioTracksEnabled, t = false) := by
  rw [toggleMute, if_pos h]
  refine ⟨rfl, ?_, ?_, ?_⟩
  · intro t ht
    simp only [List.mem_map] at ht
    obtain ⟨a, _, rfl⟩ := ht
    rfl
  · intro hm t ht
    simp only [List.mem_map] at ht
    obtain ⟨a, _, rfl⟩ := ht
    exact hm
  · intro hm t ht
    simp only [List.mem_map] at ht
    obtain ⟨a, _, rfl⟩ := ht
    exact hm

/-- Witness for C9: toggling from the initial unmuted state with one enabled
track reports muted while leaving the track enabled. -/
theorem toggleMute_spec_witness :
    (toggleMute initialMuteState).isMuted = true ∧
    ∀ t ∈ (toggleMute initialMuteState).audioTracksEnabled, t = true := by
  have h := toggleMute_spec initialMuteState rfl
  exact ⟨h.1, h.2.2.1 h.1⟩

end Evalya
